import Mathlib

/-!
Verification of the cdba client/server protocol engine (src/cdba.c and
src/cdba-server.c) against its natural-language specification.

The embedding models byte streams as `List Nat`, wire frames as a record of
numeric type plus payload bytes, and the stateful handlers of both peers as
explicit state-passing functions.  Side effects (writes to the peer, stdout,
stderr, sleeps, device-backend calls) are recorded as data in the results.
-/

namespace Cdba

/-- Message type constants.  Modelled from the spec: the numeric enum lives in
cdba.h, which is not under src/; §6 of the spec fixes the set and order of the
fifteen message kinds and states that the exact values are stable and shared
by both peers.  The concrete numbers below follow the spec's §6 listing order;
no claim depends on the particular values, only on their distinctness. -/
def MSG_SELECT_BOARD : Nat := 0

def MSG_CONSOLE : Nat := 1

def MSG_HARDRESET : Nat := 2

def MSG_POWER_ON : Nat := 3

def MSG_POWER_OFF : Nat := 4

def MSG_FASTBOOT_PRESENT : Nat := 5

def MSG_FASTBOOT_DOWNLOAD : Nat := 6

def MSG_FASTBOOT_BOOT : Nat := 7

def MSG_STATUS_UPDATE : Nat := 8

def MSG_VBUS_ON : Nat := 9

def MSG_VBUS_OFF : Nat := 10

def MSG_SEND_BREAK : Nat := 11

def MSG_LIST_DEVICES : Nat := 12

def MSG_BOARD_INFO : Nat := 13

def MSG_FASTBOOT_CONTINUE : Nat := 14

/-- The list of all message types either peer knows; a frame whose type is not
in this list hits the `default` arm of the dispatch switches. -/
def knownMsgTypes : List Nat :=
  [MSG_SELECT_BOARD, MSG_CONSOLE, MSG_HARDRESET, MSG_POWER_ON, MSG_POWER_OFF,
   MSG_FASTBOOT_PRESENT, MSG_FASTBOOT_DOWNLOAD, MSG_FASTBOOT_BOOT,
   MSG_STATUS_UPDATE, MSG_VBUS_ON, MSG_VBUS_OFF, MSG_SEND_BREAK,
   MSG_LIST_DEVICES, MSG_BOARD_INFO, MSG_FASTBOOT_CONTINUE]

/-- A wire frame: `struct msg` of cdba.h, a type tag, and `len` payload bytes
(`len` is implicit as `payload.length`). -/
structure WireMsg where
  type : Nat
  payload : List Nat
deriving DecidableEq, Repr

/-- ASCII tilde, the power-off sentinel character (0x7E). -/
def tilde : Nat := 0x7E

/-! ## Client: console sentinel scanning (src/cdba.c, handle_console) -/

/-- One step of handle_console's scan (src/cdba.c:465-474): state is the pair
(power_off_chars, received_power_off).  A tilde when the counter already
reached 19 (post-increment compare `power_off_chars++ == 19`) sets
`received_power_off` and resets the counter; any other byte resets the
counter; `received_power_off` is sticky. -/
def consoleStep (st : Nat × Bool) (b : Nat) : Nat × Bool :=
  if b = tilde then
    if st.1 = 19 then (0, true) else (st.1 + 1, st.2)
  else
    (0, st.2)

/-- handle_console's loop over one CONSOLE payload, starting from the carried
static state (the counter persists across frames). -/
def consoleRun (st : Nat × Bool) (data : List Nat) : Nat × Bool :=
  data.foldl consoleStep st

/-! ## Client: overall per-message state (src/cdba.c globals) -/

/-- The client's global flags and the handle_console static counter
(src/cdba.c:51-53, 456-457, 461, 479). -/
structure ClientState where
  quit : Bool
  fastboot_done : Bool
  fastboot_repeat : Bool
  auto_power_on : Bool
  received_power_off : Bool
  reached_timeout : Bool
  power_off_chars : Nat
deriving DecidableEq, Repr

/-- Client state at program start: all flags clear, counter zero. -/
def initClient : ClientState :=
  ⟨false, false, false, false, false, false, 0⟩

/-- Observable effect of dispatching one decoded frame in the client's
handle_message (src/cdba.c:481-557): the new global state, whether
handle_message returned -1 (breaking the main loop), bytes written to stdout,
the log text written to stderr, frames enqueued on the work queue, whether
request_fastboot_files was invoked, and seconds slept. -/
structure DispatchResult where
  st : ClientState
  brk : Bool := false
  stdout : List Nat := []
  stderrLog : String := ""
  enqueued : List WireMsg := []
  requestFastbootFiles : Bool := false
  sleptSeconds : Nat := 0
deriving DecidableEq, Repr

/-- handle_console (src/cdba.c:459-477): scan the payload for the tilde run
and echo the raw bytes to stdout. -/
def handle_console (st : ClientState) (data : List Nat) : ClientState × List Nat :=
  let r := consoleRun (st.power_off_chars, st.received_power_off) data
  ({ st with power_off_chars := r.1, received_power_off := r.2 }, data)

/-- One dispatch of the client's handle_message switch (src/cdba.c:500-551).
MSG_FASTBOOT_PRESENT reads the first payload byte (`*(uint8_t*)msg->data`;
the server always sends exactly one byte).  MSG_BOARD_INFO and the unknown
default arm return -1, which the main loop treats as `break`. -/
def client_handle_msg (st : ClientState) (m : WireMsg) : DispatchResult :=
  if m.type = MSG_SELECT_BOARD then
    { st := st, enqueued := [⟨MSG_POWER_ON, []⟩] }
  else if m.type = MSG_CONSOLE then
    let r := handle_console st m.payload
    { st := r.1, stdout := r.2 }
  else if m.type = MSG_HARDRESET then
    { st := st }
  else if m.type = MSG_POWER_ON then
    { st := st }
  else if m.type = MSG_POWER_OFF then
    if st.auto_power_on then
      { st := st, enqueued := [⟨MSG_POWER_ON, []⟩], sleptSeconds := 2 }
    else
      { st := st }
  else if m.type = MSG_FASTBOOT_PRESENT then
    if m.payload.headD 0 ≠ 0 then
      if !st.fastboot_done || st.fastboot_repeat then
        { st := st, requestFastbootFiles := true }
      else
        { st := { st with quit := true } }
    else
      { st := { st with fastboot_done := true } }
  else if m.type = MSG_FASTBOOT_DOWNLOAD then
    { st := st }
  else if m.type = MSG_FASTBOOT_BOOT then
    { st := st }
  else if m.type = MSG_STATUS_UPDATE then
    { st := st, stdout := m.payload ++ [10] }
  else if m.type = MSG_LIST_DEVICES then
    if m.payload.length = 0 then
      { st := { st with quit := true } }
    else
      { st := st, stdout := m.payload ++ [10] }
  else if m.type = MSG_BOARD_INFO then
    { st := { st with quit := true }, brk := true, stdout := m.payload ++ [10] }
  else
    { st := st, brk := true,
      stderrLog := "unk " ++ toString m.type ++ " len " ++ toString m.payload.length ++ "\n" }

/-- The client's exit-code computation after the main loop
(src/cdba.c:811-814). -/
def clientExitCode (reached_timeout fastboot_done quit received_power_off : Bool) : Nat :=
  if reached_timeout then
    if fastboot_done then 110 else 2
  else if quit || received_power_off then 0 else 1

/-! ## Client: terminal escape state machine (src/cdba.c, tty_callback) -/

/-- State carried by tty_callback across bytes: the static `special` flag
(src/cdba.c:149) and the global `quit` flag it may set. -/
structure TtyState where
  special : Bool
  quit : Bool
deriving DecidableEq, Repr

/-- One byte of tty_callback's loop (src/cdba.c:159-214).  A 0x01 byte always
enters the escape state (this branch is checked first, so 0x01 while already
escaped stays escaped); otherwise an escaped byte is dispatched through the
switch (113='q', 80='P', 112='p', 115='s', 86='V', 118='v', 97='a', 66='B';
an unrecognized byte falls through, emitting nothing) and clears `special`;
otherwise the byte is forwarded as a one-byte CONSOLE frame. -/
def tty_step (st : TtyState) (b : Nat) : TtyState × List WireMsg :=
  if b = 0x01 then
    ({ st with special := true }, [])
  else if st.special then
    let st' : TtyState := { st with special := false }
    if b = 113 then ({ st' with quit := true }, [])
    else if b = 80 then (st', [⟨MSG_POWER_ON, []⟩])
    else if b = 112 then (st', [⟨MSG_POWER_OFF, []⟩])
    else if b = 115 then (st', [⟨MSG_STATUS_UPDATE, []⟩])
    else if b = 86 then (st', [⟨MSG_VBUS_ON, []⟩])
    else if b = 118 then (st', [⟨MSG_VBUS_OFF, []⟩])
    else if b = 97 then (st', [⟨MSG_CONSOLE, [0x01]⟩])
    else if b = 66 then (st', [⟨MSG_SEND_BREAK, []⟩])
    else (st', [])
  else
    (st, [⟨MSG_CONSOLE, [b]⟩])

/-- tty_callback's loop over one chunk of bytes returned by a single read
call, collecting the frames written to the server in order. -/
def tty_run (st : TtyState) : List Nat → TtyState × List WireMsg
  | [] => (st, [])
  | b :: rest =>
    let r := tty_step st b
    let rr := tty_run r.1 rest
    (rr.1, r.2 ++ rr.2)

/-! ## Client: boot-image chunking (src/cdba.c, fastboot_work_fn) -/

/-- The payload sequence emitted by repeatedly running fastboot_work_fn
(src/cdba.c:365-394) on an image: each invocation sends
`left = MIN(2048, size - offset)` bytes from the current offset and requeues
itself until `left` is zero, so the remaining image shrinks by `take 2048`
each round and a final zero-length payload terminates the stream. -/
def fastbootChunks (data : List Nat) : List (List Nat) :=
  if h : data = [] then [[]]
  else data.take 2048 :: fastbootChunks (data.drop 2048)
termination_by data.length
decreasing_by
  simp only [List.length_drop]
  have : 0 < data.length := List.length_pos.mpr h
  omega

/-- The FASTBOOT_DOWNLOAD frames the client emits for an image. -/
def fastboot_frames (image : List Nat) : List WireMsg :=
  (fastbootChunks image).map fun c => ⟨MSG_FASTBOOT_DOWNLOAD, c⟩

/-! ## Server: fastboot reassembly (src/cdba-server.c, msg_fastboot_download) -/

/-- Server-side reassembly state: the growing scratch buffer
(fastboot_payload/fastboot_size, src/cdba-server.c:97-98) and the record of
device_boot invocations with the bytes handed over. -/
structure FastbootDl where
  payload : List Nat
  boots : List (List Nat)
deriving DecidableEq, Repr

/-- msg_fastboot_download (src/cdba-server.c:100-122): append the chunk to the
scratch buffer; on a zero-length chunk hand the buffer to device_boot, then
free it and reset the size. -/
def msg_fastboot_download (st : FastbootDl) (chunk : List Nat) : FastbootDl :=
  let newp := st.payload ++ chunk
  if chunk = [] then
    { payload := [], boots := st.boots ++ [newp] }
  else
    { payload := newp, boots := st.boots }

/-- Feeding a sequence of FASTBOOT_DOWNLOAD payloads to the server in order. -/
def serverProcessChunks (st : FastbootDl) (chunks : List (List Nat)) : FastbootDl :=
  chunks.foldl msg_fastboot_download st

/-! ## Client: main-loop power-cycle engine (src/cdba.c:692-711, 513-519) -/

/-- The subset of client globals the loop-head power-cycle check reads and
writes, with `power_cycles` the remaining cycle budget. -/
structure MainLoopState where
  received_power_off : Bool
  reached_timeout : Bool
  auto_power_on : Bool
  power_cycles : Nat
deriving DecidableEq, Repr

/-- Result of the check at the top of the client main loop: the updated
state, whether the loop `break`s, the frames enqueued, and whether the
inactivity deadline was rearmed. -/
structure CycleResult where
  st : MainLoopState
  breakLoop : Bool := false
  enqueued : List WireMsg := []
  rearmInactivity : Bool := false
deriving DecidableEq, Repr

/-- The power-cycle check at the top of the client's main loop
(src/cdba.c:692-711): on a trigger flag, break when no cycles remain, break
when the trigger includes a timeout and -C disabled cycling on timeout;
otherwise set auto_power_on, decrement the budget, clear both triggers,
enqueue POWER_OFF and rearm the inactivity deadline. -/
def power_cycle_check (power_cycle_on_timeout : Bool) (st : MainLoopState) : CycleResult :=
  if st.received_power_off || st.reached_timeout then
    if st.power_cycles = 0 then
      { st := st, breakLoop := true }
    else if st.reached_timeout && !power_cycle_on_timeout then
      { st := st, breakLoop := true }
    else
      { st := { received_power_off := false, reached_timeout := false,
                auto_power_on := true, power_cycles := st.power_cycles - 1 },
        enqueued := [⟨MSG_POWER_OFF, []⟩], rearmInactivity := true }
  else
    { st := st }

/-- The MSG_POWER_OFF arm of the client's handle_message (src/cdba.c:513-519):
when auto_power_on is set, sleep two seconds and enqueue POWER_ON. -/
def handle_power_off_ack (auto_power_on : Bool) : Nat × List WireMsg :=
  if auto_power_on then (2, [⟨MSG_POWER_ON, []⟩]) else (0, [])

/-! ## Server: message dispatch (src/cdba-server.c, handle_stdin) -/

/-- Effects the server's handle_stdin dispatch can produce: calls into the
device back-end, reply frames written to stdout, stderr log lines, and
process exit. -/
inductive ServerAction
  | deviceWrite (bytes : List Nat)
  | selectBoard (name : List Nat)
  | devicePower (up : Bool)
  | deviceUsb (up : Bool)
  | sendBreak
  | statusEnable
  | listDevices
  | boardInfo (name : List Nat)
  | fastbootContinue
  | fastbootDownload (bytes : List Nat)
  | reply (m : WireMsg)
  | log (s : String)
  | exitProc (code : Nat)
deriving DecidableEq, Repr

/-- One dispatch of the server's handle_stdin switch
(src/cdba-server.c:167-219), in source case order.  MSG_SELECT_BOARD replies
with a SELECT_BOARD ack (msg_select_board, src/cdba-server.c:86-95);
MSG_POWER_ON/MSG_POWER_OFF echo themselves as acks; the unknown default arm
logs "unk TYPE len LEN" and calls exit(1). -/
def server_handle_msg (m : WireMsg) : List ServerAction :=
  if m.type = MSG_CONSOLE then [.deviceWrite m.payload]
  else if m.type = MSG_FASTBOOT_PRESENT then []
  else if m.type = MSG_SELECT_BOARD then
    [.selectBoard m.payload, .reply ⟨MSG_SELECT_BOARD, []⟩]
  else if m.type = MSG_HARDRESET then []
  else if m.type = MSG_POWER_ON then [.devicePower true, .reply ⟨MSG_POWER_ON, []⟩]
  else if m.type = MSG_POWER_OFF then [.devicePower false, .reply ⟨MSG_POWER_OFF, []⟩]
  else if m.type = MSG_FASTBOOT_DOWNLOAD then [.fastbootDownload m.payload]
  else if m.type = MSG_FASTBOOT_BOOT then []
  else if m.type = MSG_STATUS_UPDATE then [.statusEnable]
  else if m.type = MSG_VBUS_ON then [.deviceUsb true]
  else if m.type = MSG_VBUS_OFF then [.deviceUsb false]
  else if m.type = MSG_SEND_BREAK then [.sendBreak]
  else if m.type = MSG_LIST_DEVICES then [.listDevices]
  else if m.type = MSG_BOARD_INFO then [.boardInfo m.payload]
  else if m.type = MSG_FASTBOOT_CONTINUE then
    [.fastbootContinue, .reply ⟨MSG_FASTBOOT_CONTINUE, []⟩]
  else
    [.log ("unk " ++ toString m.type ++ " len " ++ toString m.payload.length ++ "\n"),
     .exitProc 1]

/-- Modelled from the spec: circ_fill lives in circ_buf.c, which is not under
src/.  Spec §4.1 gives `fill` the outcomes bytes_read, EWOULDBLOCK and EOF,
and §7 classifies stream closure (any failure other than EWOULDBLOCK) as
session-fatal, so on EOF of the server's out stream the client's check at
src/cdba.c:776-780 breaks the main loop and the exit code is then computed
from the flags, which the EOF itself leaves unchanged. -/
def client_on_out_eof (st : ClientState) : Bool × Nat :=
  (true, clientExitCode st.reached_timeout st.fastboot_done st.quit st.received_power_off)

/-! ## Server: event loop timers (src/cdba-server.c:305-321, 368-399) -/

/-- A pending timer (struct timer, src/cdba-server.c:235-241), with an
identifier standing for its callback and its absolute deadline (timeval,
modelled as a Nat). -/
structure STimer where
  id : Nat
  tv : Nat
deriving DecidableEq, Repr

/-- watch_timer_invoke (src/cdba-server.c:305-321): traverse the timer list,
fire every timer whose deadline is strictly before now (in traversal order)
and remove it.  Returns (fired, remaining). -/
def watch_timer_invoke (now : Nat) (timers : List STimer) : List STimer × List STimer :=
  (timers.filter fun t => decide (t.tv < now),
   timers.filter fun t => decide (¬ t.tv < now))

/-- Modelled from the spec: the intrusive list implementation (list.h) is not
under src/; spec §2 specifies "a sorted timer queue", so watch_timer_add keeps
the queue ordered by deadline, and the traversal of watch_timer_invoke visits
timers in deadline order. -/
def watch_timer_add (t : STimer) : List STimer → List STimer
  | [] => [t]
  | x :: xs => if t.tv < x.tv then t :: x :: xs else x :: watch_timer_add t xs

/-- Observable events of one server loop iteration, in execution order. -/
inductive LoopEvent
  | timerFired (id : Nat)
  | readCb (fd : Nat)
deriving DecidableEq, Repr

/-- One iteration of the server main loop after select returns
(src/cdba-server.c:368-399): watch_timer_invoke runs first, then the read
callbacks of the ready descriptors. -/
def server_loop_iteration (now : Nat) (timers : List STimer) (readyFds : List Nat) :
    List LoopEvent :=
  ((watch_timer_invoke now timers).1.map fun t => LoopEvent.timerFired t.id) ++
    readyFds.map LoopEvent.readCb

/-! ## Theorems -/

/-- C2: for every terminal state of the client's main loop, the exit code is
110 on timeout with fastboot reached, 2 on timeout without fastboot, 0 on
clean quit or clean power-off, and 1 otherwise (transport error). -/
theorem exit_code_spec (rt fd q rpo : Bool) :
    (rt = true → fd = true → clientExitCode rt fd q rpo = 110) ∧
    (rt = true → fd = false → clientExitCode rt fd q rpo = 2) ∧
    (rt = false → (q = true ∨ rpo = true) → clientExitCode rt fd q rpo = 0) ∧
    (rt = false → q = false → rpo = false → clientExitCode rt fd q rpo = 1) := by
  cases rt <;> cases fd <;> cases q <;> cases rpo <;> decide

/-- C2 witness: concrete evaluations of the exit-code clauses. -/
theorem exit_code_spec_witness :
    clientExitCode true true false false = 110 ∧ clientExitCode false false true false = 0 :=
  ⟨(exit_code_spec true true false false).1 rfl rfl,
   (exit_code_spec false false true false).2.2.1 rfl (Or.inl rfl)⟩

/-- C3 counterexample: with fastboot_done already true and repeat off, a
FASTBOOT_PRESENT frame with payload byte 0 sets fastboot_done but does NOT
set quit, contradicting the claim that it also sets quit in that situation. -/
theorem fastboot_present_zero_counterexample :
    (client_handle_msg ⟨false, true, false, false, false, false, 0⟩
        ⟨MSG_FASTBOOT_PRESENT, [0]⟩).st.fastboot_done = true ∧
    ¬ (client_handle_msg ⟨false, true, false, false, false, false, 0⟩
        ⟨MSG_FASTBOOT_PRESENT, [0]⟩).st.quit = true := by
  decide

/-- C3 (amended): on FASTBOOT_PRESENT with payload byte 0 the client sets
fastboot_done to true and changes nothing else (in particular quit is left
unchanged); quit is set instead when a FASTBOOT_PRESENT frame with a nonzero
payload byte arrives while fastboot_done holds and repeat is off. -/
theorem fastboot_present_semantics (st : ClientState) (b : Nat) (hb : b ≠ 0) :
    client_handle_msg st ⟨MSG_FASTBOOT_PRESENT, [0]⟩ =
      { st := { st with fastboot_done := true } } ∧
    (st.fastboot_done = true → st.fastboot_repeat = false →
      client_handle_msg st ⟨MSG_FASTBOOT_PRESENT, [b]⟩ =
        { st := { st with quit := true } }) := by
  refine ⟨?_, fun h1 h2 => ?_⟩
  · simp [client_handle_msg, MSG_SELECT_BOARD, MSG_CONSOLE, MSG_HARDRESET,
      MSG_POWER_ON, MSG_POWER_OFF, MSG_FASTBOOT_PRESENT]
  · simp [client_handle_msg, MSG_SELECT_BOARD, MSG_CONSOLE, MSG_HARDRESET,
      MSG_POWER_ON, MSG_POWER_OFF, MSG_FASTBOOT_PRESENT, hb, h1, h2]

/-- C3 witness: the amended behavior at a concrete state and byte. -/
theorem fastboot_present_semantics_witness :
    (1 : Nat) ≠ 0 ∧
    client_handle_msg initClient ⟨MSG_FASTBOOT_PRESENT, [0]⟩ =
      { st := { initClient with fastboot_done := true } } :=
  ⟨by decide, (fastboot_present_semantics initClient 1 (by decide)).1⟩

/-- C7 counterexample: on an empty-payload BOARD_INFO reply the client sets
quit and breaks its loop, so the exit code computed from the resulting flags
is 0, not 1 as the claim states. -/
theorem info_denied_counterexample :
    (client_handle_msg initClient ⟨MSG_BOARD_INFO, []⟩).st.quit = true ∧
    (client_handle_msg initClient ⟨MSG_BOARD_INFO, []⟩).brk = true ∧
    clientExitCode
      (client_handle_msg initClient ⟨MSG_BOARD_INFO, []⟩).st.reached_timeout
      (client_handle_msg initClient ⟨MSG_BOARD_INFO, []⟩).st.fastboot_done
      (client_handle_msg initClient ⟨MSG_BOARD_INFO, []⟩).st.quit
      (client_handle_msg initClient ⟨MSG_BOARD_INFO, []⟩).st.received_power_off = 0 ∧
    clientExitCode
      (client_handle_msg initClient ⟨MSG_BOARD_INFO, []⟩).st.reached_timeout
      (client_handle_msg initClient ⟨MSG_BOARD_INFO, []⟩).st.fastboot_done
      (client_handle_msg initClient ⟨MSG_BOARD_INFO, []⟩).st.quit
      (client_handle_msg initClient ⟨MSG_BOARD_INFO, []⟩).st.received_power_off ≠ 1 := by
  decide

/-- C7 (amended): on an empty-payload BOARD_INFO reply the client prints the
empty info line plus a newline, sets quit, breaks its loop, and exits with
code 0; if the server instead closes the out stream without replying, the
break leaves all flags clear and the client exits with code 1. -/
theorem info_denied_behavior :
    (client_handle_msg initClient ⟨MSG_BOARD_INFO, []⟩).brk = true ∧
    (client_handle_msg initClient ⟨MSG_BOARD_INFO, []⟩).st.quit = true ∧
    (client_handle_msg initClient ⟨MSG_BOARD_INFO, []⟩).stdout = [10] ∧
    clientExitCode false false true false = 0 ∧
    client_on_out_eof initClient = (true, 1) := by
  decide

/-- C6: when received_power_off or reached_timeout is set and cycles remain,
the client exits if the trigger includes a timeout and -C disabled cycling on
timeout; otherwise it decrements the budget, sets auto_power_on, clears both
triggers, enqueues POWER_OFF and rearms the inactivity deadline; and on the
subsequent POWER_OFF acknowledgement it sleeps 2 seconds and enqueues
POWER_ON. -/
theorem power_cycle_engine (pcot : Bool) (st : MainLoopState)
    (htrig : st.received_power_off = true ∨ st.reached_timeout = true)
    (hcyc : 0 < st.power_cycles) :
    (st.reached_timeout = true → pcot = false →
      power_cycle_check pcot st = { st := st, breakLoop := true }) ∧
    (¬ (st.reached_timeout = true ∧ pcot = false) →
      power_cycle_check pcot st =
        { st := { received_power_off := false, reached_timeout := false,
                  auto_power_on := true, power_cycles := st.power_cycles - 1 },
          enqueued := [⟨MSG_POWER_OFF, []⟩], rearmInactivity := true }) ∧
    handle_power_off_ack true = (2, [⟨MSG_POWER_ON, []⟩]) := by
  have hne : st.power_cycles ≠ 0 := Nat.pos_iff_ne_zero.mp hcyc
  have htr : (st.received_power_off || st.reached_timeout) = true := by
    rcases htrig with h | h <;> simp [h]
  refine ⟨fun h1 h2 => ?_, fun h3 => ?_, rfl⟩
  · simp [power_cycle_check, htr, hne, h1, h2]
  · have hcond : (st.reached_timeout && !pcot) = false := by
      cases hrt : st.reached_timeout <;> cases hp : pcot <;> simp_all
    simp [power_cycle_check, htr, hne, hcond]

/-- C6 witness: a power-off trigger with two cycles left performs one cycle. -/
theorem power_cycle_engine_witness :
    power_cycle_check true ⟨true, false, false, 2⟩ =
      { st := ⟨false, false, true, 1⟩, enqueued := [⟨MSG_POWER_OFF, []⟩],
        rearmInactivity := true } :=
  (power_cycle_engine true ⟨true, false, false, 2⟩ (Or.inl rfl) (by decide)).2.1 (by decide)

/-- C8: a frame of unknown type makes the server log "unk TYPE len LEN" and
exit with status 1 (non-zero); the client's dispatch of the same frame leaves
its state unchanged and returns -1, breaking its loop, after which the exit
code computed from the clear flags is 1; EOF on the server's out stream
likewise breaks the client loop with exit code 1. -/
theorem unknown_frame_fatal (st : ClientState) (m : WireMsg)
    (hm : m.type ∉ knownMsgTypes)
    (hq : st.quit = false) (hrt : st.reached_timeout = false)
    (hrpo : st.received_power_off = false) :
    server_handle_msg m =
      [ServerAction.log ("unk " ++ toString m.type ++ " len " ++
          toString m.payload.length ++ "\n"),
       ServerAction.exitProc 1] ∧
    (client_handle_msg st m).brk = true ∧
    (client_handle_msg st m).st = st ∧
    clientExitCode st.reached_timeout st.fastboot_done st.quit st.received_power_off = 1 ∧
    client_on_out_eof st = (true, 1) := by
  have h0 : m.type ≠ MSG_SELECT_BOARD := fun h => hm (by rw [h]; decide)
  have h1 : m.type ≠ MSG_CONSOLE := fun h => hm (by rw [h]; decide)
  have h2 : m.type ≠ MSG_HARDRESET := fun h => hm (by rw [h]; decide)
  have h3 : m.type ≠ MSG_POWER_ON := fun h => hm (by rw [h]; decide)
  have h4 : m.type ≠ MSG_POWER_OFF := fun h => hm (by rw [h]; decide)
  have h5 : m.type ≠ MSG_FASTBOOT_PRESENT := fun h => hm (by rw [h]; decide)
  have h6 : m.type ≠ MSG_FASTBOOT_DOWNLOAD := fun h => hm (by rw [h]; decide)
  have h7 : m.type ≠ MSG_FASTBOOT_BOOT := fun h => hm (by rw [h]; decide)
  have h8 : m.type ≠ MSG_STATUS_UPDATE := fun h => hm (by rw [h]; decide)
  have h9 : m.type ≠ MSG_VBUS_ON := fun h => hm (by rw [h]; decide)
  have h10 : m.type ≠ MSG_VBUS_OFF := fun h => hm (by rw [h]; decide)
  have h11 : m.type ≠ MSG_SEND_BREAK := fun h => hm (by rw [h]; decide)
  have h12 : m.type ≠ MSG_LIST_DEVICES := fun h => hm (by rw [h]; decide)
  have h13 : m.type ≠ MSG_BOARD_INFO := fun h => hm (by rw [h]; decide)
  have h14 : m.type ≠ MSG_FASTBOOT_CONTINUE := fun h => hm (by rw [h]; decide)
  refine ⟨?_, ?_, ?_, ?_, ?_⟩
  · simp [server_handle_msg, h0, h1, h2, h3, h4, h5, h6, h7, h8, h9, h10, h11,
      h12, h13, h14]
  · simp [client_handle_msg, h0, h1, h2, h3, h4, h5, h6, h7, h8, h12, h13]
  · simp [client_handle_msg, h0, h1, h2, h3, h4, h5, h6, h7, h8, h12, h13]
  · simp [clientExitCode, hq, hrt, hrpo]
  · simp [client_on_out_eof, clientExitCode, hq, hrt, hrpo]

/-- C8 witness: an unknown frame of type 99 with three payload bytes. -/
theorem unknown_frame_fatal_witness :
    ¬ ((99 : Nat) ∈ knownMsgTypes) ∧
    (client_handle_msg initClient ⟨99, [1, 2, 3]⟩).brk = true :=
  ⟨by decide,
   (unknown_frame_fatal initClient ⟨99, [1, 2, 3]⟩ (by decide) rfl rfl rfl).2.1⟩

/-! ## Sentinel-run characterization (supporting lemmas for C4) -/

/-- Recursive restatement of the sentinel scanner on a fresh stream suffix:
true iff the scan starting with counter `cnt` ever reaches the 20th
consecutive tilde. -/
def hasRunAux : Nat → List Nat → Bool
  | _, [] => false
  | cnt, b :: rest =>
    if b = tilde then
      if cnt = 19 then true else hasRunAux (cnt + 1) rest
    else hasRunAux 0 rest

/-- The flag component of the fold equals the sticky disjunction of the
incoming flag with the recursive scanner. -/
theorem consoleRun_flag (s : List Nat) :
    ∀ cnt rpo, (consoleRun (cnt, rpo) s).2 = (rpo || hasRunAux cnt s) := by
  induction s with
  | nil => intro cnt rpo; simp [consoleRun, hasRunAux]
  | cons b rest ih =>
    intro cnt rpo
    by_cases hb : b = tilde
    · by_cases hc : cnt = 19
      · have : consoleRun (cnt, rpo) (b :: rest) = consoleRun (0, true) rest := by
          simp [consoleRun, consoleStep, hb, hc]
        rw [this, ih 0 true]
        simp [hasRunAux, hb, hc]
      · have : consoleRun (cnt, rpo) (b :: rest) = consoleRun (cnt + 1, rpo) rest := by
          simp [consoleRun, consoleStep, hb, hc]
        rw [this, ih (cnt + 1) rpo]
        simp [hasRunAux, hb, hc]
    · have : consoleRun (cnt, rpo) (b :: rest) = consoleRun (0, rpo) rest := by
        simp [consoleRun, consoleStep, hb]
      rw [this, ih 0 rpo]
      simp [hasRunAux, hb]

/-- A block of at least `20 - cnt` leading tildes triggers the scanner. -/
theorem hasRunAux_replicate (m : Nat) :
    ∀ cnt (r : List Nat), cnt ≤ 19 → 20 ≤ cnt + m →
      hasRunAux cnt (List.replicate m tilde ++ r) = true := by
  induction m with
  | zero => intro cnt r hle hge; omega
  | succ m ih =>
    intro cnt r hle hge
    by_cases hc : cnt = 19
    · simp [List.replicate_succ, hasRunAux, hc]
    · have : hasRunAux cnt (List.replicate (m + 1) tilde ++ r) =
          hasRunAux (cnt + 1) (List.replicate m tilde ++ r) := by
        simp [List.replicate_succ, hasRunAux, hc]
      rw [this]
      exact ih (cnt + 1) r (by omega) (by omega)

/-- Any stream containing a run of 20 tildes triggers the scanner, whatever
counter it starts from. -/
theorem hasRunAux_of_run (l : List Nat) :
    ∀ cnt (r : List Nat), cnt ≤ 19 →
      hasRunAux cnt (l ++ List.replicate 20 tilde ++ r) = true := by
  induction l with
  | nil =>
    intro cnt r hle
    simpa using hasRunAux_replicate 20 cnt r hle (by omega)
  | cons b l' ih =>
    intro cnt r hle
    by_cases hb : b = tilde
    · by_cases hc : cnt = 19
      · simp [hasRunAux, hb, hc]
      · have : hasRunAux cnt ((b :: l') ++ List.replicate 20 tilde ++ r) =
            hasRunAux (cnt + 1) (l' ++ List.replicate 20 tilde ++ r) := by
          simp [hasRunAux, hb, hc]
        rw [this]
        exact ih (cnt + 1) r (by omega)
    · have : hasRunAux cnt ((b :: l') ++ List.replicate 20 tilde ++ r) =
          hasRunAux 0 (l' ++ List.replicate 20 tilde ++ r) := by
        simp [hasRunAux, hb]
      rw [this]
      exact ih 0 r (by omega)

/-- If the scanner triggers, the stream either opens with the `20 - cnt`
tildes completing the carried run, or contains a full run of 20 tildes. -/
theorem run_of_hasRunAux (s : List Nat) :
    ∀ cnt, cnt ≤ 19 → hasRunAux cnt s = true →
      (∃ r, s = List.replicate (20 - cnt) tilde ++ r) ∨
      (∃ l r, s = l ++ List.replicate 20 tilde ++ r) := by
  induction s with
  | nil => intro cnt _ h; simp [hasRunAux] at h
  | cons b rest ih =>
    intro cnt hle h
    by_cases hb : b = tilde
    · by_cases hc : cnt = 19
      · left
        refine ⟨rest, ?_⟩
        subst hb hc
        norm_num [List.replicate_succ]
      · have h' : hasRunAux (cnt + 1) rest = true := by
          simpa [hasRunAux, hb, hc] using h
        rcases ih (cnt + 1) (by omega) h' with ⟨r, hr⟩ | ⟨l, r, hr⟩
        · left
          refine ⟨r, ?_⟩
          subst hb
          have h20 : 20 - cnt = (20 - (cnt + 1)) + 1 := by omega
          rw [h20, List.replicate_succ, List.cons_append, hr]
        · right
          exact ⟨b :: l, r, by rw [hr]; simp⟩
    · have h' : hasRunAux 0 rest = true := by
        simpa [hasRunAux, hb] using h
      rcases ih 0 (by omega) h' with ⟨r, hr⟩ | ⟨l, r, hr⟩
      · right
        refine ⟨[b], r, ?_⟩
        simpa using congrArg (b :: ·) hr
      · right
        exact ⟨b :: l, r, by rw [hr]; simp⟩

/-- C4: starting from a clear counter, the client's sentinel flag becomes set
exactly when the console byte stream contains a contiguous run of 20 tildes;
the scan composes across CONSOLE frames (so runs may span frames); a run of
exactly 19 tildes does not trigger it, a run of 20 does, and any non-tilde
byte resets the counter to zero. -/
theorem power_off_sentinel (s a b' : List Nat) (st : Nat × Bool) :
    ((consoleRun (0, false) s).2 = true ↔
      ∃ l r, s = l ++ List.replicate 20 tilde ++ r) ∧
    consoleRun st (a ++ b') = consoleRun (consoleRun st a) b' ∧
    (consoleRun (0, false) (List.replicate 19 tilde)).2 = false ∧
    (consoleRun (0, false) (List.replicate 20 tilde)).2 = true ∧
    (∀ c, c ≠ tilde → (consoleRun st [c]).1 = 0) := by
  refine ⟨?_, ?_, by decide, by decide, ?_⟩
  · rw [consoleRun_flag s 0 false]
    simp only [Bool.false_or]
    constructor
    · intro h
      rcases run_of_hasRunAux s 0 (by omega) h with ⟨r, hr⟩ | h
      · exact ⟨[], r, by simpa using hr⟩
      · exact h
    · rintro ⟨l, r, rfl⟩
      exact hasRunAux_of_run l 0 r (by omega)
  · simp [consoleRun, List.foldl_append]
  · intro c hc
    simp [consoleRun, consoleStep, hc]

/-- C4 witness: a run of 20 tildes split across two frames triggers the flag,
and a non-tilde byte resets the counter. -/
theorem power_off_sentinel_witness :
    (consoleRun (0, false) (List.replicate 20 tilde)).2 = true ∧
    (consoleRun (⟨0, false⟩ : Nat × Bool) [65]).1 = 0 :=
  ⟨(power_off_sentinel (List.replicate 20 tilde) [] [] (0, false)).2.2.2.1,
   (power_off_sentinel (List.replicate 20 tilde) [] [] (0, false)).2.2.2.2 65 (by decide)⟩

/-! ## Boot-image chunking (supporting lemmas for C1) -/

/-- Shape of the client's chunk sequence: some non-empty chunks of at most
2048 bytes whose concatenation is the image, then one empty terminator. -/
theorem fastbootChunks_spec (image : List Nat) :
    ∃ pre, fastbootChunks image = pre ++ [[]] ∧
      (∀ c ∈ pre, 0 < c.length ∧ c.length ≤ 2048) ∧
      pre.flatten = image := by
  induction image using fastbootChunks.induct with
  | case1 =>
    exact ⟨[], by rw [fastbootChunks]; simp, by simp, rfl⟩
  | case2 data h ih =>
    obtain ⟨pre, heq, hlen, hjoin⟩ := ih
    refine ⟨data.take 2048 :: pre, ?_, ?_, ?_⟩
    · rw [fastbootChunks]
      simp [h, heq]
    · intro c hc
      rcases List.mem_cons.mp hc with rfl | hc
      · constructor
        · simp only [List.length_take]
          have : 0 < data.length := List.length_pos.mpr h
          omega
        · simp only [List.length_take]
          omega
      · exact hlen c hc
    · simp [hjoin, List.take_append_drop]

/-- Feeding non-empty chunks followed by the empty terminator accumulates
their concatenation and hands it to device_boot, resetting the buffer. -/
theorem serverProcess_chunks_then_end (pre : List (List Nat)) :
    ∀ st : FastbootDl, (∀ c ∈ pre, c ≠ []) →
      serverProcessChunks st (pre ++ [[]]) =
        { payload := [], boots := st.boots ++ [st.payload ++ pre.flatten] } := by
  induction pre with
  | nil =>
    intro st _
    simp [serverProcessChunks, msg_fastboot_download]
  | cons c pre ih =>
    intro st hne
    have hc : c ≠ [] := hne c (by simp)
    have hstep : msg_fastboot_download st c = { payload := st.payload ++ c, boots := st.boots } := by
      simp [msg_fastboot_download, hc]
    have hrest := ih { payload := st.payload ++ c, boots := st.boots }
      (fun x hx => hne x (by simp [hx]))
    simp only [serverProcessChunks, List.cons_append, List.foldl_cons, hstep]
    simp only [serverProcessChunks] at hrest
    rw [hrest]
    simp [List.append_assoc]

/-- C1: for every image, the client emits FASTBOOT_DOWNLOAD frames whose
payloads before the terminator have length in (0, 2048], ending with exactly
one zero-length frame; the concatenation of the non-empty payloads is the
image; and the server's reassembly of those chunks hands device_boot exactly
the image bytes and then resets its buffer. -/
theorem boot_chunking_roundtrip (image : List Nat) :
    ∃ pre, fastboot_frames image = pre ++ [⟨MSG_FASTBOOT_DOWNLOAD, []⟩] ∧
      (∀ f ∈ pre, f.type = MSG_FASTBOOT_DOWNLOAD ∧
        0 < f.payload.length ∧ f.payload.length ≤ 2048) ∧
      (pre.map WireMsg.payload).flatten = image ∧
      serverProcessChunks ⟨[], []⟩ (fastbootChunks image) = ⟨[], [image]⟩ := by
  obtain ⟨pre0, heq, hlen, hjoin⟩ := fastbootChunks_spec image
  refine ⟨pre0.map fun c => ⟨MSG_FASTBOOT_DOWNLOAD, c⟩, ?_, ?_, ?_, ?_⟩
  · rw [fastboot_frames, heq]
    simp
  · intro f hf
    rcases List.mem_map.mp hf with ⟨c, hc, rfl⟩
    exact ⟨rfl, (hlen c hc).1, (hlen c hc).2⟩
  · rw [List.map_map]
    have hcomp : (WireMsg.payload ∘ fun c => (⟨MSG_FASTBOOT_DOWNLOAD, c⟩ : WireMsg)) = id := rfl
    rw [hcomp, List.map_id]
    exact hjoin
  · rw [heq]
    have := serverProcess_chunks_then_end pre0 ⟨[], []⟩
      (fun c hc => by
        have := (hlen c hc).1
        exact fun hnil => by simp [hnil] at this)
    rw [this]
    simp [hjoin]

/-! ## Escape machine and console relay (C5, C10) -/

/-- C5 counterexample: with the machine in ESCAPE state, consuming a 0x01
byte does not return it to NORMAL, contradicting the claim that the machine
returns from ESCAPE to NORMAL after consuming one byte. -/
theorem escape_state_counterexample :
    ¬ ((tty_step ⟨true, false⟩ 0x01).1.special = false) := by decide

/-- C5 (amended): in every state, NORMAL included, the escape prefix 0x01 is
never forwarded and always enters ESCAPE; a byte consumed in ESCAPE other
than 0x01 returns the machine to NORMAL, is never forwarded as a CONSOLE
frame except that the 'a' escape forwards a single 0x01 byte, and an
unrecognized escape byte is silently consumed; a 0x01 byte consumed in
ESCAPE forwards nothing and leaves the machine in ESCAPE (the state set is
exactly {NORMAL, ESCAPE}, a Bool). -/
theorem escape_consumption (st : TtyState) (b : Nat) (hb : b ≠ 0x01) :
    (tty_step st 0x01).2 = [] ∧
    (tty_step st 0x01).1.special = true ∧
    (st.special = true →
      (tty_step st b).1.special = false ∧
      (b = 97 → (tty_step st b).2 = [⟨MSG_CONSOLE, [0x01]⟩]) ∧
      (b ≠ 97 → ∀ m ∈ (tty_step st b).2, m.type ≠ MSG_CONSOLE) ∧
      (b ∉ ([113, 80, 112, 115, 86, 118, 97, 66] : List Nat) → (tty_step st b).2 = [])) := by
  refine ⟨by simp [tty_step], by simp [tty_step], fun hsp => ⟨?_, ?_, ?_, ?_⟩⟩
  · simp only [tty_step, if_neg hb, hsp, if_true]
    split_ifs <;> rfl
  · intro h97
    subst h97
    simp [tty_step, hsp]
  · intro h97
    simp only [tty_step, if_neg hb, hsp, if_true]
    split_ifs <;>
      simp_all [MSG_CONSOLE, MSG_POWER_ON, MSG_POWER_OFF, MSG_STATUS_UPDATE,
        MSG_VBUS_ON, MSG_VBUS_OFF, MSG_SEND_BREAK]
  · intro hmem
    simp only [List.mem_cons, not_or] at hmem
    obtain ⟨n1, n2, n3, n4, n5, n6, n7, n8, -⟩ := hmem
    simp [tty_step, hb, hsp, n1, n2, n3, n4, n5, n6, n7, n8]

/-- C5 witness: the 0x01 prefix consumed in NORMAL state forwards nothing and
enters ESCAPE, and an unrecognized escape byte (120='x') consumed in ESCAPE
state forwards nothing and returns to NORMAL. -/
theorem escape_consumption_witness :
    (tty_step ⟨false, false⟩ 0x01).2 = [] ∧
    (tty_step ⟨false, false⟩ 0x01).1.special = true ∧
    (tty_step ⟨true, false⟩ 120).1.special = false ∧
    (tty_step ⟨true, false⟩ 120).2 = [] :=
  ⟨(escape_consumption ⟨false, false⟩ 120 (by decide)).1,
   (escape_consumption ⟨false, false⟩ 120 (by decide)).2.1,
   ((escape_consumption ⟨true, false⟩ 120 (by decide)).2.2 rfl).1,
   ((escape_consumption ⟨true, false⟩ 120 (by decide)).2.2 rfl).2.2.2 (by decide)⟩

/-- Concatenating singleton lists recovers the original list. -/
theorem flatten_map_singleton (l : List Nat) :
    (l.map fun b => [b]).flatten = l := by
  induction l with
  | nil => rfl
  | cons b rest ih => simp [ih]

/-- In NORMAL state every non-0x01 byte becomes its own one-byte CONSOLE
frame and the state is unchanged. -/
theorem tty_run_normal (st : TtyState) (hsp : st.special = false) :
    ∀ bs : List Nat, (∀ b ∈ bs, b ≠ 0x01) →
      tty_run st bs = (st, bs.map fun b => ⟨MSG_CONSOLE, [b]⟩) := by
  intro bs
  induction bs with
  | nil => intro _; simp [tty_run]
  | cons b rest ih =>
    intro hb
    have hb1 : b ≠ 0x01 := hb b (by simp)
    have hstep : tty_step st b = (st, [⟨MSG_CONSOLE, [b]⟩]) := by
      simp [tty_step, hb1, hsp]
    have hrest := ih fun x hx => hb x (by simp [hx])
    simp [tty_run, hstep, hrest]

/-- C10 counterexample: a chunk of two non-escape bytes read in one call is
forwarded as two one-byte CONSOLE frames, not as one frame carrying the whole
chunk as the claim states. -/
theorem console_relay_counterexample :
    (tty_run ⟨false, false⟩ [65, 66]).2 =
      [⟨MSG_CONSOLE, [65]⟩, ⟨MSG_CONSOLE, [66]⟩] ∧
    (tty_run ⟨false, false⟩ [65, 66]).2 ≠ [⟨MSG_CONSOLE, [65, 66]⟩] := by
  decide

/-- C10 (amended): a chunk of non-escape bytes read from the terminal in one
read call is forwarded as one CONSOLE frame per byte, each carrying that raw
byte, and the concatenation of the forwarded payloads is exactly the chunk. -/
theorem console_relay_per_byte (st : TtyState) (bs : List Nat)
    (hsp : st.special = false) (hb : ∀ b ∈ bs, b ≠ 0x01) :
    tty_run st bs = (st, bs.map fun b => ⟨MSG_CONSOLE, [b]⟩) ∧
    (∀ m ∈ (tty_run st bs).2, m.type = MSG_CONSOLE) ∧
    ((tty_run st bs).2.map WireMsg.payload).flatten = bs := by
  have main := tty_run_normal st hsp bs hb
  refine ⟨main, ?_, ?_⟩
  · intro m hm
    rw [main] at hm
    rcases List.mem_map.mp hm with ⟨c, -, rfl⟩
    rfl
  · rw [main]
    simp only [List.map_map]
    have hcomp : (WireMsg.payload ∘ fun b => (⟨MSG_CONSOLE, [b]⟩ : WireMsg)) =
        fun b => [b] := rfl
    rw [hcomp]
    exact flatten_map_singleton bs

/-- C10 witness: the chunk [65, 66] from NORMAL state. -/
theorem console_relay_per_byte_witness :
    tty_run ⟨false, false⟩ [65, 66] =
      (⟨false, false⟩, [⟨MSG_CONSOLE, [65]⟩, ⟨MSG_CONSOLE, [66]⟩]) :=
  (console_relay_per_byte ⟨false, false⟩ [65, 66] rfl (by decide)).1

/-! ## Timer ordering (C9) -/

/-- Membership in an ordered-insert queue. -/
theorem watch_timer_add_mem (t y : STimer) :
    ∀ l, y ∈ watch_timer_add t l ↔ y = t ∨ y ∈ l := by
  intro l
  induction l with
  | nil => simp [watch_timer_add]
  | cons x xs ih =>
    by_cases hx : t.tv < x.tv
    · rw [watch_timer_add, if_pos hx]
      simp [List.mem_cons]
    · rw [watch_timer_add, if_neg hx]
      simp only [List.mem_cons, ih]
      tauto

/-- Ordered insertion preserves sortedness of the timer queue, supporting the
spec-modelled "sorted timer queue" of §2. -/
theorem watch_timer_add_pairwise (t : STimer) :
    ∀ l, List.Pairwise (fun a b => a.tv ≤ b.tv) l →
      List.Pairwise (fun a b => a.tv ≤ b.tv) (watch_timer_add t l) := by
  intro l
  induction l with
  | nil => intro _; simp [watch_timer_add]
  | cons x xs ih =>
    intro hp
    rw [List.pairwise_cons] at hp
    by_cases hx : t.tv < x.tv
    · rw [watch_timer_add]
      simp only [if_pos hx]
      refine List.Pairwise.cons ?_ (List.Pairwise.cons hp.1 hp.2)
      intro y hy
      rcases List.mem_cons.mp hy with rfl | hy
      · omega
      · have := hp.1 y hy
        omega
    · rw [watch_timer_add]
      simp only [if_neg hx]
      refine List.Pairwise.cons ?_ (ih hp.2)
      intro y hy
      rcases (watch_timer_add_mem t y xs).mp hy with rfl | hy
      · omega
      · exact hp.1 y hy

/-- In a queue sorted by deadline, an element with a strictly smaller deadline
occurs strictly before one with a larger deadline. -/
theorem sorted_mem_split (t1 t2 : STimer) :
    ∀ l : List STimer, List.Pairwise (fun a b => a.tv ≤ b.tv) l →
      t1 ∈ l → t2 ∈ l → t1.tv < t2.tv →
      ∃ l1 l2 l3, l = l1 ++ t1 :: (l2 ++ t2 :: l3) := by
  intro l
  induction l with
  | nil => intro _ h1; exact absurd h1 (List.not_mem_nil t1)
  | cons x xs ih =>
    intro hp h1 h2 hlt
    rw [List.pairwise_cons] at hp
    rcases List.mem_cons.mp h2 with heq2 | hm2
    · exfalso
      rcases List.mem_cons.mp h1 with heq1 | hm1
      · rw [heq1, heq2] at hlt
        exact lt_irrefl _ hlt
      · have := hp.1 t1 hm1
        rw [heq2] at hlt
        omega
    · rcases List.mem_cons.mp h1 with heq1 | hm1
      · obtain ⟨s, u, hsu⟩ := List.append_of_mem hm2
        exact ⟨[], s, u, by simp [heq1, hsu]⟩
      · obtain ⟨l1, l2, l3, hsplit⟩ := ih hp.2 hm1 hm2 hlt
        exact ⟨x :: l1, l2, l3, by simp [hsplit]⟩

/-- C9: in one server loop iteration, all expired timer callbacks fire before
any read callback runs, and with the (spec-modelled) deadline-sorted timer
queue, a timer with the earlier deadline fires before one with a later
deadline when both are expired at loop entry. -/
theorem timer_ordering (now : Nat) (timers : List STimer) (readyFds : List Nat)
    (t1 t2 : STimer)
    (hsorted : List.Pairwise (fun a b => a.tv ≤ b.tv) timers)
    (h1 : t1 ∈ timers) (h2 : t2 ∈ timers)
    (hlt : t1.tv < t2.tv) (he1 : t1.tv < now) (he2 : t2.tv < now) :
    server_loop_iteration now timers readyFds =
      ((watch_timer_invoke now timers).1.map fun t => LoopEvent.timerFired t.id) ++
        readyFds.map LoopEvent.readCb ∧
    ∃ l1 l2 l3, (watch_timer_invoke now timers).1 =
      l1 ++ t1 :: (l2 ++ t2 :: l3) := by
  refine ⟨rfl, ?_⟩
  obtain ⟨l1, l2, l3, hsplit⟩ := sorted_mem_split t1 t2 timers hsorted h1 h2 hlt
  refine ⟨l1.filter fun t => decide (t.tv < now),
          l2.filter fun t => decide (t.tv < now),
          l3.filter fun t => decide (t.tv < now), ?_⟩
  have hp1 : (decide (t1.tv < now)) = true := by simpa using he1
  have hp2 : (decide (t2.tv < now)) = true := by simpa using he2
  simp only [watch_timer_invoke, hsplit, List.filter_append, List.filter_cons,
    hp1, hp2, if_true]

/-- C9 witness: two expired timers with deadlines 5 < 10 at now = 20 and one
ready descriptor. -/
theorem timer_ordering_witness :
    server_loop_iteration 20 [⟨1, 5⟩, ⟨2, 10⟩] [0] =
      ((watch_timer_invoke 20 [⟨1, 5⟩, ⟨2, 10⟩]).1.map fun t =>
          LoopEvent.timerFired t.id) ++
        [0].map LoopEvent.readCb ∧
    ∃ l1 l2 l3, (watch_timer_invoke 20 [⟨1, 5⟩, ⟨2, 10⟩]).1 =
      l1 ++ ⟨1, 5⟩ :: (l2 ++ ⟨2, 10⟩ :: l3) :=
  timer_ordering 20 [⟨1, 5⟩, ⟨2, 10⟩] [0] ⟨1, 5⟩ ⟨2, 10⟩ (by decide)
    (by decide) (by decide) (by decide) (by decide) (by decide)

end Cdba
